import Mathlib

/-!
Verification of the finance-ai frontend research pages against their
specification.  The definitions below are a shallow embedding of the
TypeScript sources:

* `src/web/app/research/page.tsx`        — research list / new-research form
* `src/web/app/research/[id]/page.tsx`   — research detail page (WebSocket client)
* `src/web/components/SentimentAnalysis.tsx` (second document)
                                         — `ResearchProgress` / `StatusBadge`
* `src/unnamed/part_000` (second document) — `ReportViewer` / `MarkdownRenderer`
* `src/unnamed/part_003`                 — shared TypeScript type definitions

Strings are handled through small character-list helpers so that every
definition reduces inside the kernel.
-/

namespace FinanceAI

/-- Embedding of JavaScript `String.prototype.startsWith`: `strStartsWith p s`
is `true` when `p` is a prefix of `s`. -/
def strStartsWith (p s : String) : Bool :=
  p.data.isPrefixOf s.data

/-- Embedding of JavaScript `String.prototype.trim`: strip leading and
trailing whitespace characters. -/
def jsTrim (s : String) : String :=
  String.mk (((s.data.dropWhile Char.isWhitespace).reverse.dropWhile
    Char.isWhitespace).reverse)

/-- Embedding of JavaScript `String.prototype.slice(n)`: drop the first `n`
characters. -/
def dropChars (n : Nat) (s : String) : String :=
  String.mk (s.data.drop n)

/-- Split a character list at every occurrence of the separator character,
keeping empty segments — the semantics of JavaScript `split('\n')`. -/
def splitOnCharList (c : Char) : List Char → List (List Char)
  | [] => [[]]
  | x :: xs =>
    let r := splitOnCharList c xs
    if x = c then [] :: r
    else
      match r with
      | [] => [[x]]
      | y :: ys => (x :: y) :: ys

/-- Embedding of JavaScript `content.split('\n')`. -/
def splitLines (s : String) : List String :=
  (splitOnCharList '\n' s.data).map String.mk

/-- Split a character list at every character satisfying `p`, keeping empty
segments. -/
def splitByPred (p : Char → Bool) : List Char → List (List Char)
  | [] => [[]]
  | x :: xs =>
    let r := splitByPred p xs
    if p x then [] :: r
    else
      match r with
      | [] => [[x]]
      | y :: ys => (x :: y) :: ys

-- ===========================================================================
-- Shared type definitions (src/unnamed/part_003)
-- ===========================================================================

/-- `ResearchStatus` from the type definitions:
`'pending' | 'running' | 'completed' | 'failed' | 'cancelled'`. -/
inductive ResearchStatus where
  | pending
  | running
  | completed
  | failed
  | cancelled
deriving DecidableEq, Repr

/-- The market discriminator `'US' | 'KR' | 'Both'`. -/
inductive Market where
  | US
  | KR
  | Both
deriving DecidableEq, Repr

/-- The report-language discriminator `'ko' | 'en'` used by the
new-research form. -/
inductive Language where
  | ko
  | en
deriving DecidableEq, Repr

/-- `ResearchProgress` record: `{event, stage, details}`; `details` is a
flat record, embedded as an association list. -/
structure ResearchProgress where
  event : String
  stage : String
  details : List (String × String)
deriving DecidableEq, Repr

/-- The `report` part of `ResearchResult`. -/
structure ReportData where
  report_content : String
  executive_summary : String
  main_topic : String
  research_objective : String
  generated_at : String
deriving DecidableEq, Repr

/-- The `statistics` part of `ResearchResult`. -/
structure ResearchStatistics where
  total_topics : Nat
  completed_topics : Nat
  failed_topics : Nat
  total_tool_calls : Nat
deriving DecidableEq, Repr

/-- `ResearchResult`: both members are optional in the TypeScript type. -/
structure ResearchResult where
  report : Option ReportData
  statistics : Option ResearchStatistics
deriving DecidableEq, Repr

/-- `ResearchStatusResponse`: the full job snapshot returned by
`GET /research/{id}` and carried by `current_state` / `update` events. -/
structure ResearchStatusResponse where
  research_id : String
  status : ResearchStatus
  topic : String
  created_at : String
  started_at : Option String
  completed_at : Option String
  current_stage : Option String
  progress : Option ResearchProgress
  error : Option String
  result : Option ResearchResult
deriving DecidableEq, Repr

/-- `WSEvent`: the discriminated union of the six stream event types
(`connected`, `current_state`, `update`, `heartbeat`, `final`, `error`). -/
inductive WSEvent where
  | connected (research_id : String)
  | current_state (data : ResearchStatusResponse)
  | update (data : ResearchStatusResponse)
  | heartbeat
  | final (status : ResearchStatus) (result : Option ResearchResult)
      (error : Option String)
  | wsError (message : String)
deriving DecidableEq, Repr

-- ===========================================================================
-- Research detail page: WebSocket client state (src/web/app/research/[id]/page.tsx)
-- ===========================================================================

/-- Observable state of the research detail page: the `research`, `error`
and `wsConnected` React states together with whether the page's WebSocket
is still open (`closed` once `ws.close()` has been called). -/
structure PageState where
  research : Option ResearchStatusResponse
  pageError : Option String
  wsConnected : Bool
  socketOpen : Bool
deriving DecidableEq, Repr

/-- The `ws.onmessage` switch of the detail page, one case per event type:
`connected` only logs; `current_state` and `update` replace the snapshot
with the event's `data`; `final` merges `status`/`result`/`error` into the
previous snapshot (when one exists) and closes the socket; `error` sets the
page error message; `heartbeat` does nothing. -/
def handleWSEvent (st : PageState) : WSEvent → PageState
  | .connected _ => st
  | .current_state d => { st with research := some d }
  | .update d => { st with research := some d }
  | .heartbeat => st
  | .final s res err =>
    { st with
      research := st.research.map fun prev =>
        { prev with status := s, result := res, error := err }
      socketOpen := false }
  | .wsError m => { st with pageError := some m }

/-- One delivery step: a message only reaches `ws.onmessage` while the
socket is open; after `ws.close()` no further events are processed. -/
def wsStep (st : PageState) (ev : WSEvent) : PageState :=
  if st.socketOpen then handleWSEvent st ev else st

/-- Deliver a sequence of events to the page. -/
def processEvents (st : PageState) (evs : List WSEvent) : PageState :=
  evs.foldl wsStep st

-- ===========================================================================
-- Research detail page: rendering (src/web/app/research/[id]/page.tsx and
-- the ResearchProgress / StatusBadge components)
-- ===========================================================================

/-- The bottom error banner of the `ResearchProgress` component:
`{error && status === 'failed' && (… {error} …)}`.  JavaScript truthiness:
an empty error string renders nothing. -/
def progressErrorBanner (status : ResearchStatus) (error : Option String) :
    Option String :=
  match error with
  | some e => if e = "" then none
              else if status = ResearchStatus.failed then some e else none
  | none => none

/-- The text content contributed by the error banner region (empty when the
banner is not rendered). -/
def progressErrorBannerText (status : ResearchStatus)
    (error : Option String) : String :=
  (progressErrorBanner status error).getD ""

/-- `isActive` on the detail page:
`research.status === 'pending' || research.status === 'running'`. -/
def isActive (status : ResearchStatus) : Bool :=
  status = ResearchStatus.pending || status = ResearchStatus.running

/-- What the report pane of the detail page shows. -/
inductive ReportPane where
  | viewer (result : ResearchResult)
  | inProgress (stageLabel : String)
  | notGenerated
deriving DecidableEq, Repr

/-- The report pane of the detail page:
`research.result ? <ReportViewer/> : (isActive ? "분석 진행 중입니다…" with
`research.current_stage || '초기화 중'` : "리포트가 아직 생성되지 않았습니다")`. -/
def reportPane (research : ResearchStatusResponse) : ReportPane :=
  match research.result with
  | some res => ReportPane.viewer res
  | none =>
    if isActive research.status then
      ReportPane.inProgress
        (match research.current_stage with
         | some s => if s = "" then "초기화 중" else s
         | none => "초기화 중")
    else ReportPane.notGenerated

/-- `getStatusLabel` from the research list page (`labels` record). -/
def getStatusLabel : ResearchStatus → String
  | .pending => "대기중"
  | .running => "진행중"
  | .completed => "완료"
  | .failed => "실패"
  | .cancelled => "취소됨"

/-- One entry of the `StatusBadge` component's `config` record. -/
structure BadgeConfig where
  label : String
  className : String
deriving DecidableEq, Repr

/-- The `config` lookup of the `StatusBadge` component. -/
def statusBadgeConfig : ResearchStatus → BadgeConfig
  | .pending =>
    ⟨"대기중", "bg-gray-100 text-gray-800 dark:bg-gray-700 dark:text-gray-200"⟩
  | .running =>
    ⟨"진행중", "bg-blue-100 text-blue-800 dark:bg-blue-900 dark:text-blue-200"⟩
  | .completed =>
    ⟨"완료", "bg-green-100 text-green-800 dark:bg-green-900 dark:text-green-200"⟩
  | .failed =>
    ⟨"실패", "bg-red-100 text-red-800 dark:bg-red-900 dark:text-red-200"⟩
  | .cancelled =>
    ⟨"취소됨", "bg-yellow-100 text-yellow-800 dark:bg-yellow-900 dark:text-yellow-200"⟩

-- ===========================================================================
-- New-research form (src/web/app/research/page.tsx)
-- ===========================================================================

/-- The `formData` React state of the research page: the object literal
passed to `useState` has exactly these six members. -/
structure FormData where
  topic : String
  symbols : List String
  market : Market
  context : String
  max_topics : Nat
  language : Language
deriving DecidableEq, Repr

/-- Initial `formData`: topic is derived from the `symbol` URL parameter
when present, `max_topics` starts at 10 and `language` at `'ko'`. -/
def initialFormData (initialSymbol : String) (initialMarket : Market) :
    FormData :=
  { topic := if initialSymbol = "" then ""
             else initialSymbol ++ " 종목 분석 및 투자 전망"
    symbols := []
    market := initialMarket
    context := ""
    max_topics := 10
    language := Language.ko }

/-- Clamp to a closed interval — the value semantics of an HTML
`<input type="range" min=… max=…>`: the browser never reports a value
outside `[lo, hi]`. -/
def clampRange (lo hi v : Nat) : Nat := min hi (max lo v)

/-- The `onChange` updates the form performs on `formData` — each handler
spreads the previous state and replaces one field.  The `max_topics` slider
is `<input type="range" min="3" max="20">`, so its reported value is
clamped to `[3, 20]` before `parseInt`. -/
inductive FormUpdate where
  | setTopic (v : String)
  | setMarket (v : Market)
  | setLanguage (v : Language)
  | setContext (v : String)
  | setMaxTopics (v : Nat)
deriving DecidableEq, Repr

/-- Apply one form update (`setFormData({ ...formData, field: v })`). -/
def applyUpdate (fd : FormData) : FormUpdate → FormData
  | .setTopic v => { fd with topic := v }
  | .setMarket v => { fd with market := v }
  | .setLanguage v => { fd with language := v }
  | .setContext v => { fd with context := v }
  | .setMaxTopics v => { fd with max_topics := clampRange 3 20 v }

/-- Apply a sequence of form updates from an initial state. -/
def applyUpdates (fd : FormData) (us : List FormUpdate) : FormData :=
  us.foldl applyUpdate fd

/-- `symbolInput.split(',').map((s) => s.trim()).filter(Boolean)`. -/
def parseSymbols (symbolInput : String) : List String :=
  (((splitOnCharList ',' symbolInput.data).map String.mk).map jsTrim).filter
    (fun s => s ≠ "")

/-- JSON-ish values appearing in the request body. -/
inductive JsonValue where
  | str (s : String)
  | num (n : Nat)
  | arr (xs : List String)
deriving DecidableEq, Repr

/-- Serialization of `Market` (`'US' | 'KR' | 'Both'`). -/
def Market.toStr : Market → String
  | .US => "US"
  | .KR => "KR"
  | .Both => "Both"

/-- Serialization of `Language` (`'ko' | 'en'`). -/
def Language.toStr : Language → String
  | .ko => "ko"
  | .en => "en"

/-- The object `{ ...formData, symbols: symbolInput.split(',')… }` passed to
`pipelineApi.start`.  Modelled from the spec: `pipelineApi.start` (the
`@/lib/api` module is not among the sources) POSTs its argument object
verbatim as the JSON body of `POST /research`, so this association list is
the request body; key order is the insertion order of the `formData`
literal. -/
def requestBody (fd : FormData) (symbolInput : String) :
    List (String × JsonValue) :=
  [("topic", JsonValue.str fd.topic),
   ("symbols", JsonValue.arr (parseSymbols symbolInput)),
   ("market", JsonValue.str fd.market.toStr),
   ("context", JsonValue.str fd.context),
   ("max_topics", JsonValue.num fd.max_topics),
   ("language", JsonValue.str fd.language.toStr)]

/-- `handleSubmit`: returns `none` when no request is issued
(`if (!formData.topic.trim()) return`), otherwise the body sent to
`POST /research`. -/
def handleSubmit (fd : FormData) (symbolInput : String) :
    Option (List (String × JsonValue)) :=
  if jsTrim fd.topic = "" then none
  else some (requestBody fd symbolInput)

/-- The `disabled` expression of the submit button:
`submitting || !formData.topic.trim()`. -/
def submitDisabled (submitting : Bool) (fd : FormData) : Bool :=
  submitting || jsTrim fd.topic = ""

-- ===========================================================================
-- Topic queue (backend data model)
-- ===========================================================================

/-- Modelled from the spec: the backend pipeline sources are not among the
repository files provided, so topic status is taken from §3:
`{pending, researching, completed, failed}`. -/
inductive TopicStatus where
  | pending
  | researching
  | completed
  | failed
deriving DecidableEq, Repr

/-- Modelled from the spec: the `tool_type` enumeration of a ToolTrace. -/
inductive ToolType where
  | stock_price
  | financials
  | technical_indicators
  | news
  | web_search
  | rag_search
  | youtube
deriving DecidableEq, Repr

/-- Modelled from the spec: a ToolTrace record — one external tool
invocation with a per-job sequential citation id. -/
structure ToolTrace where
  tool_type : ToolType
  input_params : List (String × String)
  raw_output : String
  citation_id : Nat
  timestamp : String
deriving DecidableEq, Repr

/-- Modelled from the spec: a TopicBlock — one decomposed research
sub-topic with append-only notes and tool traces. -/
structure TopicBlock where
  topic : String
  status : TopicStatus
  notes : List String
  tool_traces : List ToolTrace
deriving DecidableEq, Repr

/-- Modelled from the spec: case/whitespace normalization of topic text —
trim, collapse internal whitespace runs to single spaces, lower-case. -/
def normalizeTopic (s : String) : String :=
  String.mk
    ((List.intercalate [' ']
      ((splitByPred Char.isWhitespace s.data).filter (fun w => w ≠ []))).map
      Char.toLower)

/-- Modelled from the spec: a TopicQueue owns an ordered, deduplicated
collection of TopicBlocks. -/
structure TopicQueue where
  blocks : List TopicBlock
deriving DecidableEq, Repr

/-- Modelled from the spec: inserting a topic whose normalized text already
occurs in the queue is a no-op (not an error); otherwise a fresh pending
TopicBlock is appended. -/
def TopicQueue.insert (q : TopicQueue) (t : String) : TopicQueue :=
  if q.blocks.any (fun b => normalizeTopic b.topic == normalizeTopic t) then q
  else ⟨q.blocks ++ [⟨t, TopicStatus.pending, [], []⟩]⟩

/-- The queue invariant: normalized topic text is unique within a queue. -/
def TopicQueue.Unique (q : TopicQueue) : Prop :=
  (q.blocks.map fun b => normalizeTopic b.topic).Nodup

instance (q : TopicQueue) : Decidable q.Unique := by
  unfold TopicQueue.Unique; infer_instance

/-- How many blocks of the queue carry the given normalized topic text. -/
def TopicQueue.normCount (q : TopicQueue) (t : String) : Nat :=
  (q.blocks.map fun b => normalizeTopic b.topic).count (normalizeTopic t)

-- ===========================================================================
-- MarkdownRenderer (src/unnamed/part_000, ReportViewer document)
-- ===========================================================================

/-- One rendered element of the `MarkdownRenderer`.  Text payloads carry
the string handed to `renderInlineMarkdown` (inline bold/italic/code
substitution is orthogonal to the line-level structure modelled here). -/
inductive MdElement where
  | codeBlock (content : String)
  | h1 (text : String)
  | h2 (text : String)
  | h3 (text : String)
  | li (text : String)
  | liNum (text : String)
  | br
  | para (text : String)
deriving DecidableEq, Repr

/-- The mutable locals of `MarkdownRenderer`'s `forEach` body. -/
structure MdState where
  elements : List MdElement
  inCodeBlock : Bool
  codeContent : List String
  codeLanguage : String
deriving DecidableEq, Repr

/-- Initial renderer state. -/
def mdInit : MdState := ⟨[], false, [], ""⟩

/-- The numbered-list test `line.match(/^(\d+)\.\s(.+)/)`: one or more
digits, a dot, one whitespace character, then a non-empty remainder, which
is returned (capture group 2). -/
def numberedItem (line : String) : Option String :=
  let ds := line.data.takeWhile Char.isDigit
  let rest := line.data.drop ds.length
  if ds = [] then none
  else
    match rest with
    | '.' :: w :: r => if w.isWhitespace && r ≠ [] then some (String.mk r) else none
    | _ => none

/-- Join accumulated code lines: `codeContent.join('\n')`. -/
def joinCode (ls : List String) : String :=
  String.mk (List.intercalate ['\n'] (ls.map String.data))

/-- One iteration of `MarkdownRenderer`'s `lines.forEach` body. -/
def mdStep (st : MdState) (line : String) : MdState :=
  if strStartsWith "```" line then
    if st.inCodeBlock then
      { st with elements := st.elements ++ [MdElement.codeBlock (joinCode st.codeContent)]
                codeContent := []
                inCodeBlock := false }
    else
      { st with inCodeBlock := true, codeLanguage := dropChars 3 line }
  else if st.inCodeBlock then
    { st with codeContent := st.codeContent ++ [line] }
  else if strStartsWith "# " line then
    { st with elements := st.elements ++ [MdElement.h1 (dropChars 2 line)] }
  else if strStartsWith "## " line then
    { st with elements := st.elements ++ [MdElement.h2 (dropChars 3 line)] }
  else if strStartsWith "### " line then
    { st with elements := st.elements ++ [MdElement.h3 (dropChars 4 line)] }
  else if strStartsWith "- " line || strStartsWith "* " line then
    { st with elements := st.elements ++ [MdElement.li (dropChars 2 line)] }
  else
    match numberedItem line with
    | some txt => { st with elements := st.elements ++ [MdElement.liNum txt] }
    | none =>
      if jsTrim line = "" then
        { st with elements := st.elements ++ [MdElement.br] }
      else
        { st with elements := st.elements ++ [MdElement.para line] }

/-- `MarkdownRenderer`: split the content on newlines, run the `forEach`,
and return the accumulated elements.  Note that code lines still pending in
`codeContent` at the end are not flushed — exactly as in the source. -/
def markdownRender (content : String) : List MdElement :=
  ((splitLines content).foldl mdStep mdInit).elements

-- ===========================================================================
-- Sample values used by witnesses
-- ===========================================================================

/-- A concrete running job snapshot with no result yet. -/
def sampleRunningSnapshot : ResearchStatusResponse :=
  { research_id := "res-1", status := ResearchStatus.running
    topic := "AAPL 종목 분석", created_at := "2026-01-30T00:00:00"
    started_at := some "2026-01-30T00:00:01", completed_at := none
    current_stage := none, progress := none, error := none, result := none }

/-- A concrete failed job snapshot carrying an error message. -/
def sampleFailedSnapshot : ResearchStatusResponse :=
  { research_id := "res-2", status := ResearchStatus.failed
    topic := "AAPL 종목 분석", created_at := "2026-01-30T00:00:00"
    started_at := some "2026-01-30T00:00:01"
    completed_at := some "2026-01-30T00:05:00"
    current_stage := some "research", progress := none
    error := some "LLM call exhausted retries", result := none }

/-- A detail-page state whose WebSocket is open and which holds a snapshot. -/
def sampleOpenState : PageState :=
  { research := some sampleRunningSnapshot, pageError := none
    wsConnected := true, socketOpen := true }

-- ===========================================================================
-- Helper lemmas
-- ===========================================================================

/-- Once the socket is closed, delivering any sequence of events leaves the
page state untouched. -/
theorem processEvents_of_closed (evs : List WSEvent) (st : PageState)
    (h : st.socketOpen = false) : processEvents st evs = st := by
  induction evs generalizing st with
  | nil => rfl
  | cons e es ih =>
    have hstep : wsStep st e = st := by simp [wsStep, h]
    show processEvents (wsStep st e) es = st
    rw [hstep]
    exact ih st h

-- ===========================================================================
-- Claims
-- ===========================================================================

/-- Claim C1: for every job snapshot rendered by the research detail page,
if status is failed and error is non-null the progress panel's error-banner
region renders the error text verbatim, and if result is null while status
is pending or running the page renders the in-progress placeholder rather
than an error. -/
theorem C1_failed_error_verbatim_and_null_result_placeholder
    (r : ResearchStatusResponse) :
    (∀ e, r.status = ResearchStatus.failed → r.error = some e →
      progressErrorBannerText r.status r.error = e)
    ∧ (r.result = none →
        r.status = ResearchStatus.pending ∨ r.status = ResearchStatus.running →
        ∃ s, reportPane r = ReportPane.inProgress s) := by
  constructor
  · intro e hs he
    rw [hs, he]
    by_cases h : e = ""
    · simp [progressErrorBannerText, progressErrorBanner, h]
    · simp [progressErrorBannerText, progressErrorBanner, h]
  · intro hres hst
    have hact : isActive r.status = true := by
      rcases hst with h | h <;> simp [isActive, h]
    simp only [reportPane, hres, hact, if_true]
    exact ⟨_, rfl⟩

/-- Witness for C1 at concrete snapshots: a failed job's error message is
the banner text, and a running job without a result shows the in-progress
placeholder. -/
theorem C1_witness :
    progressErrorBannerText sampleFailedSnapshot.status sampleFailedSnapshot.error =
      "LLM call exhausted retries"
    ∧ ∃ s, reportPane sampleRunningSnapshot = ReportPane.inProgress s :=
  ⟨(C1_failed_error_verbatim_and_null_result_placeholder sampleFailedSnapshot).1
      "LLM call exhausted retries" rfl rfl,
   (C1_failed_error_verbatim_and_null_result_placeholder sampleRunningSnapshot).2
      rfl (Or.inr rfl)⟩

/-- Claim C2: a `final` event received while the socket is open and a
snapshot is present updates exactly the snapshot's status, result and error
fields (all other page state unchanged), closes the socket, and no further
events are processed on that socket. -/
theorem C2_final_updates_and_closes
    (st : PageState) (prev : ResearchStatusResponse) (s : ResearchStatus)
    (res : Option ResearchResult) (err : Option String)
    (hopen : st.socketOpen = true) (hprev : st.research = some prev) :
    wsStep st (WSEvent.final s res err) =
      { st with research := some { prev with status := s, result := res, error := err }
                socketOpen := false }
    ∧ ∀ evs, processEvents (wsStep st (WSEvent.final s res err)) evs =
        wsStep st (WSEvent.final s res err) := by
  have h1 : wsStep st (WSEvent.final s res err) =
      { st with research := some { prev with status := s, result := res, error := err }
                socketOpen := false } := by
    simp [wsStep, hopen, handleWSEvent, hprev]
  refine ⟨h1, fun evs => ?_⟩
  apply processEvents_of_closed
  rw [h1]

/-- Witness for C2: after a concrete `final` event on an open page state,
the snapshot carries the terminal fields and two further events (a
heartbeat and an update) change nothing. -/
theorem C2_witness :
    wsStep sampleOpenState
        (WSEvent.final ResearchStatus.completed none none) =
      { sampleOpenState with
          research := some { sampleRunningSnapshot with
            status := ResearchStatus.completed, result := none, error := none }
          socketOpen := false }
    ∧ processEvents
        (wsStep sampleOpenState (WSEvent.final ResearchStatus.completed none none))
        [WSEvent.heartbeat, WSEvent.update sampleFailedSnapshot] =
      wsStep sampleOpenState (WSEvent.final ResearchStatus.completed none none) :=
  ⟨(C2_final_updates_and_closes sampleOpenState sampleRunningSnapshot
      ResearchStatus.completed none none rfl rfl).1,
   (C2_final_updates_and_closes sampleOpenState sampleRunningSnapshot
      ResearchStatus.completed none none rfl rfl).2
      [WSEvent.heartbeat, WSEvent.update sampleFailedSnapshot]⟩

/-- Claim C9: a heartbeat event leaves the detail page's entire observable
state unchanged — snapshot, error message, connection flag and socket are
exactly as before, whether delivered through the socket or handled
directly. -/
theorem C9_heartbeat_is_noop (st : PageState) :
    handleWSEvent st WSEvent.heartbeat = st
    ∧ wsStep st WSEvent.heartbeat = st := by
  refine ⟨rfl, ?_⟩
  by_cases h : st.socketOpen <;> simp [wsStep, handleWSEvent, h]

/-- Claim C5: every stream event is one of exactly the six types, and the
detail-page handler treats each as specified: `connected` is acknowledged
without state change, `current_state` and `update` replace the snapshot
with the event's data, `heartbeat` is ignored, `final` applies terminal
status/result/error and closes the socket, and `error` sets the page error
message. -/
theorem C5_six_event_types_each_handled :
    (∀ ev : WSEvent,
      (∃ rid, ev = WSEvent.connected rid)
      ∨ (∃ d, ev = WSEvent.current_state d)
      ∨ (∃ d, ev = WSEvent.update d)
      ∨ ev = WSEvent.heartbeat
      ∨ (∃ s res err, ev = WSEvent.final s res err)
      ∨ (∃ m, ev = WSEvent.wsError m))
    ∧ (∀ st rid, handleWSEvent st (WSEvent.connected rid) = st)
    ∧ (∀ st d, handleWSEvent st (WSEvent.current_state d) =
        { st with research := some d })
    ∧ (∀ st d, handleWSEvent st (WSEvent.update d) =
        { st with research := some d })
    ∧ (∀ st : PageState, handleWSEvent st WSEvent.heartbeat = st)
    ∧ (∀ st s res err, handleWSEvent st (WSEvent.final s res err) =
        { st with
            research := st.research.map fun prev =>
              { prev with status := s, result := res, error := err }
            socketOpen := false })
    ∧ (∀ st m, handleWSEvent st (WSEvent.wsError m) =
        { st with pageError := some m }) := by
  refine ⟨fun ev => ?_, fun _ _ => rfl, fun _ _ => rfl, fun _ _ => rfl,
    fun _ => rfl, fun _ _ _ _ => rfl, fun _ _ => rfl⟩
  cases ev <;> simp

/-- Claim C7: the research list page's status-label function and the
`StatusBadge` config lookup are total over `ResearchStatus` and return a
non-empty label for every status. -/
theorem C7_status_maps_total_nonempty (s : ResearchStatus) :
    getStatusLabel s ≠ "" ∧ (statusBadgeConfig s).label ≠ "" := by
  cases s <;> exact ⟨by decide, by decide⟩

/-- The `max_topics` bound `[3, 20]` is preserved by any sequence of form
updates. -/
theorem applyUpdates_max_topics_bounds (us : List FormUpdate) (fd : FormData)
    (h3 : 3 ≤ fd.max_topics) (h20 : fd.max_topics ≤ 20) :
    3 ≤ (applyUpdates fd us).max_topics
    ∧ (applyUpdates fd us).max_topics ≤ 20 := by
  induction us generalizing fd with
  | nil => exact ⟨h3, h20⟩
  | cons u us ih =>
    show 3 ≤ (applyUpdates (applyUpdate fd u) us).max_topics ∧ _
    cases u with
    | setTopic v => exact ih _ h3 h20
    | setMarket v => exact ih _ h3 h20
    | setLanguage v => exact ih _ h3 h20
    | setContext v => exact ih _ h3 h20
    | setMaxTopics v =>
      refine ih _ ?_ ?_ <;> simp [applyUpdate, clampRange]

/-- Claim C4: the new-research form initializes `max_topics` to 10, and
after any sequence of form edits the value stays an integer in `[3, 20]`,
which is the value carried in the submitted request body. -/
theorem C4_max_topics_default_and_range (initialSymbol : String)
    (initialMarket : Market) (us : List FormUpdate) :
    (initialFormData initialSymbol initialMarket).max_topics = 10
    ∧ 3 ≤ (applyUpdates (initialFormData initialSymbol initialMarket) us).max_topics
    ∧ (applyUpdates (initialFormData initialSymbol initialMarket) us).max_topics ≤ 20
    ∧ ∀ symbolInput,
        ("max_topics",
          JsonValue.num
            (applyUpdates (initialFormData initialSymbol initialMarket) us).max_topics)
          ∈ requestBody (applyUpdates (initialFormData initialSymbol initialMarket) us)
              symbolInput := by
  obtain ⟨h3, h20⟩ :=
    applyUpdates_max_topics_bounds us (initialFormData initialSymbol initialMarket)
      (by simp [initialFormData]) (by simp [initialFormData])
  exact ⟨rfl, h3, h20, fun symbolInput => by simp [requestBody]⟩

/-- Claim C6: a submission attempt with an empty or whitespace-only topic
(after trimming) issues no `POST /research` request — the handler returns
before calling the API — and the submit button is disabled. -/
theorem C6_blank_topic_no_request (fd : FormData) (symbolInput : String)
    (submitting : Bool) (h : jsTrim fd.topic = "") :
    handleSubmit fd symbolInput = none
    ∧ submitDisabled submitting fd = true := by
  exact ⟨by simp [handleSubmit, h], by simp [submitDisabled, h]⟩

/-- A form state whose topic is whitespace-only. -/
def blankTopicForm : FormData :=
  { topic := "   ", symbols := [], market := Market.US, context := ""
    max_topics := 10, language := Language.ko }

/-- Witness for C6: with a whitespace-only topic no request body is
produced and the button is disabled. -/
theorem C6_witness :
    handleSubmit blankTopicForm "AAPL" = none
    ∧ submitDisabled false blankTopicForm = true :=
  C6_blank_topic_no_request blankTopicForm "AAPL" false (by decide)

/-- Claim C3 counterexample: submitting the form in its initial state
(symbol URL parameter "AAPL") does issue a request, and its body carries
the key `language`, which is not among
{topic, symbols, market, context, max_topics} — so the body does not
consist of exactly those five fields. -/
theorem C3_counterexample :
    (handleSubmit (initialFormData "AAPL" Market.US) "AAPL").isSome = true
    ∧ "language" ∈
        ((handleSubmit (initialFormData "AAPL" Market.US) "AAPL").getD []).map
          Prod.fst
    ∧ "language" ∉ ["topic", "symbols", "market", "context", "max_topics"] := by
  refine ⟨by decide, by decide, by decide⟩

/-- Claim C3 as amended: every request body submitted by the new-research
form consists of exactly the fields topic, symbols, market, context,
max_topics and language, in that order. -/
theorem C3_amended_body_fields (fd : FormData) (symbolInput : String)
    (body : List (String × JsonValue))
    (h : handleSubmit fd symbolInput = some body) :
    body.map Prod.fst =
      ["topic", "symbols", "market", "context", "max_topics", "language"] := by
  rw [handleSubmit] at h
  split at h
  · exact absurd h (by simp)
  · injection h with h
    rw [← h]
    rfl

/-- Witness for the amended C3 at the initial form state. -/
theorem C3_witness :
    (requestBody (initialFormData "AAPL" Market.US) "AAPL").map Prod.fst =
      ["topic", "symbols", "market", "context", "max_topics", "language"] :=
  C3_amended_body_fields (initialFormData "AAPL" Market.US) "AAPL" _ (by decide)

/-- The normalized topics of a queue, in order. -/
def TopicQueue.normTopics (q : TopicQueue) : List String :=
  q.blocks.map fun b => normalizeTopic b.topic

/-- The dedup guard of `TopicQueue.insert` tests membership of the
normalized topic in the queue's normalized topics. -/
theorem insert_guard_iff (q : TopicQueue) (t : String) :
    (q.blocks.any fun b => normalizeTopic b.topic == normalizeTopic t) = true
      ↔ normalizeTopic t ∈ q.normTopics := by
  rw [List.any_eq_true]
  constructor
  · rintro ⟨b, hb, hbeq⟩
    have hbe := eq_of_beq hbeq
    rw [← hbe]
    exact List.mem_map_of_mem _ hb
  · intro hmem
    rw [TopicQueue.normTopics, List.mem_map] at hmem
    obtain ⟨b, hb, hbe⟩ := hmem
    exact ⟨b, hb, beq_iff_eq.mpr hbe⟩

/-- After inserting `t`, the normalized text of `t` occurs in the queue. -/
theorem insert_mem (q : TopicQueue) (t : String) :
    normalizeTopic t ∈ (q.insert t).normTopics := by
  unfold TopicQueue.insert
  split
  · next hany => exact (insert_guard_iff q t).mp hany
  · show normalizeTopic t ∈ TopicQueue.normTopics
      ⟨q.blocks ++ [⟨t, TopicStatus.pending, [], []⟩]⟩
    unfold TopicQueue.normTopics
    rw [List.map_append]
    exact List.mem_append_right _ (by simp)

/-- Inserting a topic whose normalized text is already present is a no-op. -/
theorem insert_noop_of_mem (q : TopicQueue) (t : String)
    (h : normalizeTopic t ∈ q.normTopics) : q.insert t = q := by
  unfold TopicQueue.insert
  rw [if_pos ((insert_guard_iff q t).mpr h)]

/-- Claim C8: inserting the same case/whitespace-normalized topic twice
into a TopicQueue yields exactly one TopicBlock — the second insertion is a
no-op — and normalized topic text stays unique after every insertion. -/
theorem C8_insert_dedup (q : TopicQueue) (t u : String)
    (hq : q.Unique) (h : normalizeTopic u = normalizeTopic t) :
    (q.insert t).insert u = q.insert t
    ∧ (q.insert t).normCount t = 1
    ∧ ∀ v : String, (q.insert v).Unique := by
  refine ⟨?_, ?_, ?_⟩
  · exact insert_noop_of_mem _ u (h ▸ insert_mem q t)
  · show ((q.insert t).normTopics).count (normalizeTopic t) = 1
    by_cases hmem : normalizeTopic t ∈ q.normTopics
    · rw [insert_noop_of_mem q t hmem]
      have hq' : q.normTopics.Nodup := hq
      have hle := List.nodup_iff_count_le_one.mp hq' (normalizeTopic t)
      have hpos := List.count_pos_iff.mpr hmem
      omega
    · have hnoop :
          (q.blocks.any fun b => normalizeTopic b.topic == normalizeTopic t) = false := by
        rw [Bool.eq_false_iff]
        intro hc
        exact hmem ((insert_guard_iff q t).mp hc)
      unfold TopicQueue.insert
      rw [hnoop]
      show ((⟨q.blocks ++ [⟨t, TopicStatus.pending, [], []⟩]⟩ :
        TopicQueue).normTopics).count (normalizeTopic t) = 1
      rw [show (⟨q.blocks ++ [⟨t, TopicStatus.pending, [], []⟩]⟩ :
            TopicQueue).normTopics = q.normTopics ++ [normalizeTopic t] by
          simp [TopicQueue.normTopics]]
      rw [List.count_append]
      rw [List.count_eq_zero_of_not_mem hmem]
      simp
  · intro v
    by_cases hmem : normalizeTopic v ∈ q.normTopics
    · rw [insert_noop_of_mem q v hmem]; exact hq
    · have hnoop :
          (q.blocks.any fun b => normalizeTopic b.topic == normalizeTopic v) = false := by
        rw [Bool.eq_false_iff]
        intro hc
        exact hmem ((insert_guard_iff q v).mp hc)
      show ((q.insert v).normTopics).Nodup
      unfold TopicQueue.insert
      rw [hnoop]
      show ((⟨q.blocks ++ [⟨v, TopicStatus.pending, [], []⟩]⟩ :
        TopicQueue).normTopics).Nodup
      rw [show (⟨q.blocks ++ [⟨v, TopicStatus.pending, [], []⟩]⟩ :
            TopicQueue).normTopics = q.normTopics ++ [normalizeTopic v] by
          simp [TopicQueue.normTopics]]
      refine List.Nodup.append hq (List.nodup_singleton _) ?_
      intro a ha hb
      rw [List.mem_singleton] at hb
      exact hmem (hb ▸ ha)

/-- Witness for C8: inserting `"Apple Pie"` and then `" apple  PIE"` into
an empty queue leaves a single block, and an insertion into the empty
queue keeps normalized topics unique. -/
theorem C8_witness :
    ((TopicQueue.insert ⟨[]⟩ "Apple Pie").insert " apple  PIE" =
       TopicQueue.insert ⟨[]⟩ "Apple Pie")
    ∧ (TopicQueue.insert ⟨[]⟩ "Apple Pie").normCount "Apple Pie" = 1
    ∧ (TopicQueue.insert (⟨[]⟩ : TopicQueue) "AAPL 밸류에이션").Unique := by
  have h := C8_insert_dedup ⟨[]⟩ "Apple Pie" " apple  PIE" (by decide) (by decide)
  exact ⟨h.1, h.2.1, h.2.2 "AAPL 밸류에이션"⟩

/-- Inside an open code block, lines that are not fences only accumulate in
`codeContent`: they never reach `elements`, and the block stays open. -/
theorem mdFold_inCode_no_fence (suffix : List String) (st : MdState)
    (hst : st.inCodeBlock = true)
    (hnof : ∀ l ∈ suffix, strStartsWith "```" l = false) :
    (suffix.foldl mdStep st).elements = st.elements
    ∧ (suffix.foldl mdStep st).inCodeBlock = true := by
  induction suffix generalizing st with
  | nil => exact ⟨rfl, hst⟩
  | cons l ls ih =>
    have hl : strStartsWith "```" l = false := hnof l (List.mem_cons_self l ls)
    have hstep : mdStep st l = { st with codeContent := st.codeContent ++ [l] } := by
      simp [mdStep, hl, hst]
    rw [List.foldl_cons, hstep]
    exact ih { st with codeContent := st.codeContent ++ [l] } hst
      fun x hx => hnof x (List.mem_cons_of_mem l hx)

/-- Claim C10: when the report content has an opening code fence that is
never closed by a later fence line, the renderer silently drops every line
after the opening fence — the output is exactly the elements accumulated
before it, and the buffered code lines are never emitted. -/
theorem C10_unclosed_fence_drops_tail (content : String)
    (pre suffix : List String) (fence : String)
    (hsplit : splitLines content = pre ++ fence :: suffix)
    (hfence : strStartsWith "```" fence = true)
    (hopen : (pre.foldl mdStep mdInit).inCodeBlock = false)
    (hnof : ∀ l ∈ suffix, strStartsWith "```" l = false) :
    markdownRender content = (pre.foldl mdStep mdInit).elements := by
  unfold markdownRender
  rw [hsplit, List.foldl_append]
  have hstep : mdStep (pre.foldl mdStep mdInit) fence =
      { pre.foldl mdStep mdInit with
          inCodeBlock := true, codeLanguage := dropChars 3 fence } := by
    simp [mdStep, hfence, hopen]
  show ((fence :: suffix).foldl mdStep (pre.foldl mdStep mdInit)).elements = _
  rw [List.foldl_cons, hstep]
  exact (mdFold_inCode_no_fence suffix _ rfl hnof).1

/-- Witness for C10: a report whose fence is never closed renders only the
text before the fence; `"secret"` and `"end"` are dropped. -/
theorem C10_witness :
    markdownRender "hello\n```\nsecret\nend" = [MdElement.para "hello"] := by
  have h := C10_unclosed_fence_drops_tail "hello\n```\nsecret\nend"
    ["hello"] ["secret", "end"] "```" (by decide) (by decide) (by decide)
    (by decide)
  exact h.trans (by decide)

end FinanceAI
